import Mathlib

/-!
Shallow embedding of the chunked-upload subsystem of memorly-server
(`src/utils/chunk-upload.service.ts`, `src/controllers/chunk-upload.controller.ts`,
`src/models/chunk-upload.ts`).

The Mongo collection is a list of sessions; `findOne` is `List.find?`;
`doc.save()` replaces the record with the same (unique) `uploadId`.
Calls to the S3-compatible object store are modelled by a command trace
plus an outcome parameter supplied by the environment (the ETag returned
by `UploadPart`, or whether `Complete`/`Abort` succeeded).
-/

namespace Memorly

/-- Session status enum of the `ChunkUpload` schema. -/
inductive Status where
  | initiated
  | uploading
  | completed
  | failed
  | aborted
deriving DecidableEq, Repr

/-- One element of the `parts` array: `{partNumber, eTag, size}`. -/
structure Part where
  partNumber : Nat
  eTag : String
  size : Nat
deriving DecidableEq, Repr

/-- A `ChunkUpload` document (the fields the service reads or writes). -/
structure Session where
  userId : String
  uploadId : String
  fileName : String
  originalName : String
  mimeType : String
  totalSize : Nat
  totalChunks : Nat
  uploadedChunks : Nat
  parts : List Part
  status : Status
  expiresAt : Nat
deriving DecidableEq, Repr

/-- Commands issued to the object store (S3 multipart API). -/
inductive StoreCmd where
  | createMultipart (key : String) (contentType : String)
  | uploadPart (key : String) (uploadId : String) (partNumber : Nat) (body : List Nat)
  | completeMultipart (key : String) (uploadId : String) (parts : List (Nat × String))
  | abortMultipart (key : String) (uploadId : String)
deriving DecidableEq, Repr

/-- The distinct error throws of the service and controller. -/
inductive UploadError where
  | invalidMediaType
  | sizeExceeded
  | tooSmallForChunked
  | sessionNotFound
  | alreadyCompleted
  | abortedOrFailed
  | incompleteUpload
  | storeFailure
  | unauthorized
  | badPartNumber
  | missingFields
deriving DecidableEq, Repr

deriving instance DecidableEq for Except

/-- Result of one operation: the returned value or error, the database
after the operation, and the trace of store commands issued. -/
structure OpOut (α : Type) where
  result : Except UploadError α
  db : List Session
  cmds : List StoreCmd
deriving DecidableEq

/-- Whether the operation returned successfully. -/
def resOk {α : Type} : Except UploadError α → Bool
  | .ok _ => true
  | .error _ => false

def CHUNK_SIZE : Nat := 5 * 1024 * 1024

def MAX_VIDEO_SIZE : Nat := 10 * 1024 * 1024 * 1024

def allowedVideoTypes : List String :=
  ["video/mp4", "video/mpeg", "video/quicktime", "video/x-msvideo", "video/webm"]

/-- Model of the service's `ChunkUpload.findOne` filtered by `uploadId` only. -/
def findByUploadId (db : List Session) (uploadId : String) : Option Session :=
  db.find? fun s => decide (s.uploadId = uploadId)

/-- Model of the owner-scoped `ChunkUpload.findOne` filtered by `uploadId` and `userId`. -/
def findOwned (db : List Session) (uploadId userId : String) : Option Session :=
  db.find? fun s => decide (s.uploadId = uploadId ∧ s.userId = userId)

/-- Model of `doc.save()`: store the document back under its unique `uploadId` key. -/
def saveSession (db : List Session) (s : Session) : List Session :=
  db.map fun t => if t.uploadId = s.uploadId then s else t

/-- Suffix of a character list starting at its last dot. -/
def extSuffix : List Char → List Char
  | [] => []
  | c :: rest =>
      let r := extSuffix rest
      if r.isEmpty then (if c = '.' ∧ rest ≠ [] then c :: rest else r) else r

/-- Model of Node's `path.extname`: the suffix of the basename from its
last dot, with a sole leading dot not counting as an extension marker. -/
def extname (name : String) : String :=
  let base := (name.toList.reverse.takeWhile fun c => c ≠ '/').reverse
  match base with
  | [] => ""
  | c0 :: rest => String.mk (extSuffix (if c0 = '.' then rest else c0 :: rest))

/-- The `switch (fileExtension)` of `initiateChunkedUpload`. -/
def resolveContentType (mimeType ext : String) : String :=
  let e := ext.toLower
  if e = ".mp4" then "video/mp4"
  else if e = ".webm" then "video/webm"
  else if e = ".mov" then "video/quicktime"
  else if e = ".avi" then "video/x-msvideo"
  else mimeType

structure InitiateResult where
  uploadId : String
  fileName : String
  chunkSize : Nat
deriving DecidableEq, Repr

/-- Model of `initiateChunkedUpload`.  `now` is epoch milliseconds;
`randomString` stands for the random hex suffix; `storeUploadId` is the
UploadId the store returns on `CreateMultipartUpload` (`none` = store
failure or no UploadId in the response). -/
def initiateChunkedUpload (db : List Session) (userId originalName mimeType : String)
    (totalSize totalChunks : Nat) (now : Nat) (randomString : String)
    (storeUploadId : Option String) : OpOut InitiateResult :=
  if ¬ allowedVideoTypes.contains mimeType then
    ⟨.error .invalidMediaType, db, []⟩
  else if totalSize > MAX_VIDEO_SIZE then
    ⟨.error .sizeExceeded, db, []⟩
  else if totalSize < CHUNK_SIZE ∧ totalChunks > 1 then
    ⟨.error .tooSmallForChunked, db, []⟩
  else
    let ext := extname originalName
    let fileName := "files/" ++ userId ++ "/" ++ toString now ++ "-" ++ randomString ++ ext
    let contentType := resolveContentType mimeType ext
    match storeUploadId with
    | none => ⟨.error .storeFailure, db, [.createMultipart fileName contentType]⟩
    | some uid =>
        let s : Session :=
          { userId := userId
            uploadId := uid
            fileName := fileName
            originalName := originalName
            mimeType := contentType
            totalSize := totalSize
            totalChunks := totalChunks
            uploadedChunks := 0
            parts := []
            status := .initiated
            expiresAt := now + 24 * 60 * 60 * 1000 }
        ⟨.ok ⟨uid, fileName, CHUNK_SIZE⟩, db ++ [s], [.createMultipart fileName contentType]⟩

structure UploadChunkResult where
  partNumber : Nat
  eTag : String
  uploadedChunks : Nat
  totalChunks : Nat
deriving DecidableEq, Repr

/-- Model of `uploadChunk`.  Note the lookup is by `uploadId` alone — the
service takes no caller identity.  `storeETag` is the ETag returned by the
store for `UploadPart` (`none` = failure or missing ETag). -/
def uploadChunk (db : List Session) (uploadId : String) (partNumber : Nat)
    (chunk : List Nat) (storeETag : Option String) : OpOut UploadChunkResult :=
  match findByUploadId db uploadId with
  | none => ⟨.error .sessionNotFound, db, []⟩
  | some s =>
    if s.status = .completed then
      ⟨.error .alreadyCompleted, db, []⟩
    else if s.status = .aborted ∨ s.status = .failed then
      ⟨.error .abortedOrFailed, db, []⟩
    else
      match s.parts.find? fun p => decide (p.partNumber = partNumber) with
      | some existing =>
          ⟨.ok ⟨partNumber, existing.eTag, s.uploadedChunks, s.totalChunks⟩, db, []⟩
      | none =>
          let cmds := [StoreCmd.uploadPart s.fileName uploadId partNumber chunk]
          match storeETag with
          | none => ⟨.error .storeFailure, db, cmds⟩
          | some eTag =>
              let s' : Session :=
                { s with
                    parts := s.parts ++ [⟨partNumber, eTag, chunk.length⟩]
                    uploadedChunks := s.uploadedChunks + 1
                    status := .uploading }
              ⟨.ok ⟨partNumber, eTag, s'.uploadedChunks, s'.totalChunks⟩,
               saveSession db s', cmds⟩

/-- Insert a part into a list sorted ascending by `partNumber`. -/
def insertPart (p : Part) : List Part → List Part
  | [] => [p]
  | q :: rest =>
      if p.partNumber ≤ q.partNumber then p :: q :: rest else q :: insertPart p rest

/-- Model of `parts.sort((a, b) => a.partNumber - b.partNumber)`. -/
def sortParts : List Part → List Part
  | [] => []
  | p :: rest => insertPart p (sortParts rest)

structure CompleteResult where
  fileId : String
  fileName : String
  fileUrl : String
  bucketName : String
  fileSize : Nat
deriving DecidableEq, Repr

/-- Model of `completeChunkedUpload`.  `storeOk` tells whether the store
accepted the `CompleteMultipartUpload` command; `endpoint`/`bucketName`
come from configuration. -/
def completeChunkedUpload (db : List Session) (uploadId userId : String)
    (storeOk : Bool) (endpoint bucketName : String) : OpOut CompleteResult :=
  match findOwned db uploadId userId with
  | none => ⟨.error .sessionNotFound, db, []⟩
  | some s =>
    if s.status = .completed then
      ⟨.error .alreadyCompleted, db, []⟩
    else if s.uploadedChunks ≠ s.totalChunks then
      ⟨.error .incompleteUpload, db, []⟩
    else
      let sorted := sortParts s.parts
      let cmd := StoreCmd.completeMultipart s.fileName uploadId
        (sorted.map fun p => (p.partNumber, p.eTag))
      if storeOk then
        ⟨.ok ⟨s.fileName, s.fileName,
              endpoint ++ "/" ++ bucketName ++ "/" ++ s.fileName,
              bucketName, s.totalSize⟩,
         saveSession db { s with parts := sorted, status := .completed }, [cmd]⟩
      else
        ⟨.error .storeFailure, db, [cmd]⟩

/-- Model of `abortChunkedUpload`.  The service performs no status check
before aborting.  `storeOk` tells whether `AbortMultipartUpload`
succeeded. -/
def abortChunkedUpload (db : List Session) (uploadId userId : String)
    (storeOk : Bool) : OpOut Unit :=
  match findOwned db uploadId userId with
  | none => ⟨.error .sessionNotFound, db, []⟩
  | some s =>
      let cmd := StoreCmd.abortMultipart s.fileName uploadId
      if storeOk then
        ⟨.ok (), saveSession db { s with status := .aborted }, [cmd]⟩
      else
        ⟨.error .storeFailure, db, [cmd]⟩

structure StatusResult where
  uploadId : String
  fileName : String
  originalName : String
  totalSize : Nat
  totalChunks : Nat
  uploadedChunks : Nat
  status : Status
  parts : List (Nat × Nat)
  expiresAt : Nat
deriving DecidableEq, Repr

/-- Model of `getUploadStatus` — read-only, owner-scoped. -/
def getUploadStatus (db : List Session) (uploadId userId : String) :
    Except UploadError StatusResult :=
  match findOwned db uploadId userId with
  | none => .error .sessionNotFound
  | some s =>
      .ok ⟨s.uploadId, s.fileName, s.originalName, s.totalSize, s.totalChunks,
           s.uploadedChunks, s.status, s.parts.map fun p => (p.partNumber, p.size),
           s.expiresAt⟩

/-- Model of the controller's `uploadChunkHandler`: it requires an
authenticated caller and `partNumber ≥ 1`, then calls `uploadChunk` — the
caller identity is not passed on. -/
def uploadChunkHandler (db : List Session) (caller : Option String)
    (uploadId : String) (partNumber : Option Int) (chunk : Option (List Nat))
    (storeETag : Option String) : OpOut UploadChunkResult :=
  match caller with
  | none => ⟨.error .unauthorized, db, []⟩
  | some _ =>
    match partNumber, chunk with
    | some pn, some body =>
        if pn < 1 then ⟨.error .badPartNumber, db, []⟩
        else uploadChunk db uploadId pn.toNat body storeETag
    | _, _ => ⟨.error .missingFields, db, []⟩

/-- The `find` filter of `cleanupExpiredUploads`:
`expiresAt < now` and status in `{initiated, uploading}`. -/
def isExpiredActive (now : Nat) (s : Session) : Bool :=
  decide (s.expiresAt < now) &&
    (decide (s.status = .initiated) || decide (s.status = .uploading))

/-- The per-session loop of `cleanupExpiredUploads`: abort in the store,
then delete the record and count it; a failure (`ok u.uploadId = false`)
is caught and the loop continues with the next session. -/
def cleanupLoop (ok : String → Bool) :
    List Session → Nat × List Session × List StoreCmd → Nat × List Session × List StoreCmd
  | [], acc => acc
  | u :: rest, (n, d, cmds) =>
      let cmds' := cmds ++ [StoreCmd.abortMultipart u.fileName u.uploadId]
      if ok u.uploadId then
        cleanupLoop ok rest (n + 1, d.filter fun s => decide (s.uploadId ≠ u.uploadId), cmds')
      else
        cleanupLoop ok rest (n, d, cmds')

/-- Model of `cleanupExpiredUploads`: select the expired non-terminal
sessions, then process each independently.
Returns (cleanedCount, db, commands). -/
def cleanupExpiredUploads (db : List Session) (now : Nat) (ok : String → Bool) :
    Nat × List Session × List StoreCmd :=
  cleanupLoop ok (db.filter (isExpiredActive now)) (0, db, [])

/-- Modelled from the spec: the completeness check the spec describes for
`complete` — build the full expected set `{1..totalChunks}` and test
membership of every element in the recorded part numbers. -/
def coversExpected (parts : List Part) (totalChunks : Nat) : Bool :=
  (List.range totalChunks).all fun i => parts.any fun p => decide (p.partNumber = i + 1)

/-- The stored counter agrees with the parts array. -/
def counterInv (s : Session) : Prop := s.uploadedChunks = s.parts.length

/-- Every session in the database satisfies `counterInv`. -/
def dbInv (db : List Session) : Prop := ∀ s ∈ db, counterInv s

/-- No two entries of `parts` share a `partNumber`. -/
def partsNodup (s : Session) : Prop := (s.parts.map Part.partNumber).Nodup

/-- A status from which the spec allows no further transitions. -/
def Status.isTerminal : Status → Prop
  | .completed => True
  | .aborted => True
  | .failed => True
  | _ => False

instance (s : Session) : Decidable (partsNodup s) := by
  unfold partsNodup
  infer_instance

instance (s : Session) : Decidable (counterInv s) := by
  unfold counterInv
  infer_instance

instance (db : List Session) : Decidable (dbInv db) := by
  unfold dbInv
  infer_instance

instance (st : Status) : Decidable st.isTerminal :=
  match st with
  | .completed => .isTrue trivial
  | .aborted => .isTrue trivial
  | .failed => .isTrue trivial
  | .initiated => .isFalse fun h => h
  | .uploading => .isFalse fun h => h

/-! ### Helper lemmas about the store and sorting -/

theorem find_of_saveSession {db : List Session} {uid : String} {s s' : Session}
    (hf : findByUploadId db uid = some s) (h : s'.uploadId = uid) :
    findByUploadId (saveSession db s') uid = some s' := by
  unfold findByUploadId saveSession
  rw [List.find?_map]
  have hp : ((fun x : Session => decide (x.uploadId = uid)) ∘
      fun t : Session => if t.uploadId = s'.uploadId then s' else t) =
      fun t : Session => decide (t.uploadId = uid) := by
    funext t
    by_cases hc : t.uploadId = s'.uploadId
    · simp [hc, h]
    · simp [hc]
  rw [hp]
  unfold findByUploadId at hf
  rw [hf]
  have hs : s.uploadId = uid := by simpa using List.find?_some hf
  simp [hs, h]

theorem mem_saveSession {db : List Session} {s' t : Session}
    (ht : t ∈ saveSession db s') : t = s' ∨ t ∈ db := by
  unfold saveSession at ht
  rcases List.mem_map.mp ht with ⟨x, hx, hfx⟩
  by_cases hc : x.uploadId = s'.uploadId
  · rw [if_pos hc] at hfx
    exact Or.inl hfx.symm
  · rw [if_neg hc] at hfx
    exact Or.inr (hfx ▸ hx)

theorem saveSession_self {db : List Session} {s : Session}
    (hnd : (db.map Session.uploadId).Nodup) (hs : s ∈ db) :
    saveSession db s = db := by
  unfold saveSession
  have heach : ∀ t ∈ db, (if t.uploadId = s.uploadId then s else t) = t := by
    intro t ht
    by_cases hc : t.uploadId = s.uploadId
    · have := List.inj_on_of_nodup_map hnd ht hs hc
      simp [this]
    · simp [hc]
  calc db.map (fun t => if t.uploadId = s.uploadId then s else t)
      = db.map id := List.map_congr_left heach
    _ = db := List.map_id db

theorem mem_insertPart {p x : Part} {l : List Part} (h : x ∈ insertPart p l) :
    x = p ∨ x ∈ l := by
  induction l with
  | nil => simpa [insertPart] using h
  | cons q rest ih =>
      by_cases hc : p.partNumber ≤ q.partNumber
      · rw [insertPart, if_pos hc] at h
        rcases List.mem_cons.mp h with h1 | h1
        · exact Or.inl h1
        · exact Or.inr h1
      · rw [insertPart, if_neg hc] at h
        rcases List.mem_cons.mp h with h1 | h1
        · exact Or.inr (h1 ▸ List.mem_cons_self q rest)
        · rcases ih h1 with h2 | h2
          · exact Or.inl h2
          · exact Or.inr (List.mem_cons_of_mem q h2)

theorem sorted_insertPart {p : Part} {l : List Part}
    (h : l.Pairwise fun a b => a.partNumber ≤ b.partNumber) :
    (insertPart p l).Pairwise fun a b => a.partNumber ≤ b.partNumber := by
  induction l with
  | nil => simp [insertPart]
  | cons q rest ih =>
      rcases List.pairwise_cons.mp h with ⟨hq, hrest⟩
      by_cases hc : p.partNumber ≤ q.partNumber
      · rw [insertPart, if_pos hc]
        refine List.pairwise_cons.mpr ⟨?_, h⟩
        intro x hx
        rcases List.mem_cons.mp hx with rfl | hx
        · exact hc
        · exact le_trans hc (hq x hx)
      · rw [insertPart, if_neg hc]
        refine List.pairwise_cons.mpr ⟨?_, ih hrest⟩
        intro x hx
        rcases @mem_insertPart p x rest hx with rfl | hx
        · omega
        · exact hq x hx

theorem sorted_sortParts (l : List Part) :
    (sortParts l).Pairwise fun a b => a.partNumber ≤ b.partNumber := by
  induction l with
  | nil => simp [sortParts]
  | cons p rest ih => exact sorted_insertPart ih

theorem length_insertPart (p : Part) (l : List Part) :
    (insertPart p l).length = l.length + 1 := by
  induction l with
  | nil => rfl
  | cons q rest ih =>
      by_cases hc : p.partNumber ≤ q.partNumber
      · simp [insertPart, hc]
      · simp [insertPart, hc, ih]

theorem length_sortParts (l : List Part) : (sortParts l).length = l.length := by
  induction l with
  | nil => rfl
  | cons p rest ih => simp [sortParts, length_insertPart, ih]

/-! ### Helper lemmas about the cleanup loop -/

theorem cleanupLoop_cmds (ok : String → Bool) (todo : List Session) (n : Nat)
    (d : List Session) (cmds : List StoreCmd) :
    (cleanupLoop ok todo (n, d, cmds)).2.2 =
      cmds ++ todo.map fun u => StoreCmd.abortMultipart u.fileName u.uploadId := by
  induction todo generalizing n d cmds with
  | nil => simp [cleanupLoop]
  | cons u rest ih =>
      by_cases hc : ok u.uploadId
      · simp [cleanupLoop, hc, ih]
      · simp [cleanupLoop, hc, ih]

theorem cleanupLoop_count (ok : String → Bool) (todo : List Session) (n : Nat)
    (d : List Session) (cmds : List StoreCmd) :
    (cleanupLoop ok todo (n, d, cmds)).1 =
      n + (todo.filter fun u => ok u.uploadId).length := by
  induction todo generalizing n d cmds with
  | nil => simp [cleanupLoop]
  | cons u rest ih =>
      by_cases hc : ok u.uploadId
      · simp [cleanupLoop, hc, ih, List.filter_cons]
        omega
      · simp [cleanupLoop, hc, ih, List.filter_cons]

theorem cleanupLoop_db_subset (ok : String → Bool) (todo : List Session) (n : Nat)
    (d : List Session) (cmds : List StoreCmd) :
    (cleanupLoop ok todo (n, d, cmds)).2.1 ⊆ d := by
  induction todo generalizing n d cmds with
  | nil => simp [cleanupLoop]
  | cons u rest ih =>
      by_cases hc : ok u.uploadId
      · rw [cleanupLoop]
        simp only [hc, if_true]
        intro x hx
        exact List.filter_subset' _ (ih _ _ _ hx)
      · rw [cleanupLoop]
        simp only [hc, if_false]
        exact ih _ _ _

theorem cleanupLoop_mem_preserved {s : Session} (ok : String → Bool)
    (todo : List Session) (n : Nat) (d : List Session) (cmds : List StoreCmd)
    (hs : s ∈ d) (hne : ∀ u ∈ todo, s.uploadId ≠ u.uploadId) :
    s ∈ (cleanupLoop ok todo (n, d, cmds)).2.1 := by
  induction todo generalizing n d cmds with
  | nil => simpa [cleanupLoop] using hs
  | cons u rest ih =>
      by_cases hc : ok u.uploadId
      · rw [cleanupLoop]
        simp only [hc, if_true]
        refine ih _ _ _ ?_ ?_
        · exact List.mem_filter.mpr ⟨hs, by simpa using hne u (List.mem_cons_self u rest)⟩
        · exact fun v hv => hne v (List.mem_cons_of_mem u hv)
      · rw [cleanupLoop]
        simp only [hc, if_false]
        exact ih _ _ _ hs fun v hv => hne v (List.mem_cons_of_mem u hv)

theorem cleanupLoop_removes {u : Session} (ok : String → Bool) (todo : List Session)
    (n : Nat) (d : List Session) (cmds : List StoreCmd)
    (hu : u ∈ todo) (hok : ok u.uploadId = true) :
    u ∉ (cleanupLoop ok todo (n, d, cmds)).2.1 := by
  induction todo generalizing n d cmds with
  | nil => simp at hu
  | cons v rest ih =>
      rcases List.mem_cons.mp hu with rfl | hu
      · rw [cleanupLoop]
        simp only [hok, if_true]
        intro hmem
        have h1 := cleanupLoop_db_subset ok rest (n + 1)
          (d.filter fun s => decide (s.uploadId ≠ u.uploadId)) _ hmem
        simp [List.mem_filter] at h1
      · by_cases hc : ok v.uploadId
        · rw [cleanupLoop]
          simp only [hc, if_true]
          exact ih _ _ _ hu
        · rw [cleanupLoop]
          simp only [hc, if_false]
          exact ih _ _ _ hu

/-! ### Concrete sessions used by counterexamples and witnesses -/

/-- A session whose two recorded part numbers are 1 and 5 although
`totalChunks = 2`: the counter matches but the expected set does not. -/
def gapSession : Session :=
  { userId := "u1", uploadId := "up1", fileName := "f1", originalName := "a.mp4",
    mimeType := "video/mp4", totalSize := 100, totalChunks := 2, uploadedChunks := 2,
    parts := [⟨1, "e1", 50⟩, ⟨5, "e5", 50⟩], status := .uploading, expiresAt := 9 }

/-- A fully uploaded two-part session, parts recorded out of order. -/
def fullSession : Session :=
  { userId := "u2", uploadId := "up2", fileName := "f2", originalName := "b.mp4",
    mimeType := "video/mp4", totalSize := 100, totalChunks := 2, uploadedChunks := 2,
    parts := [⟨2, "e2", 50⟩, ⟨1, "e1", 50⟩], status := .uploading, expiresAt := 9 }

/-- A completed session. -/
def doneSession : Session :=
  { userId := "u3", uploadId := "up3", fileName := "f3", originalName := "c.mp4",
    mimeType := "video/mp4", totalSize := 50, totalChunks := 1, uploadedChunks := 1,
    parts := [⟨1, "e1", 50⟩], status := .completed, expiresAt := 9 }

/-- Another completed session. -/
def doneSession2 : Session :=
  { userId := "u4", uploadId := "up4", fileName := "f4", originalName := "d.mp4",
    mimeType := "video/mp4", totalSize := 50, totalChunks := 1, uploadedChunks := 1,
    parts := [⟨1, "e1", 50⟩], status := .completed, expiresAt := 9 }

/-- A freshly initiated two-part session with no parts yet. -/
def freshSession : Session :=
  { userId := "u5", uploadId := "up5", fileName := "f5", originalName := "e.mp4",
    mimeType := "video/mp4", totalSize := 100, totalChunks := 2, uploadedChunks := 0,
    parts := [], status := .initiated, expiresAt := 9 }

/-- Another freshly initiated session, owned by "u6". -/
def freshSession2 : Session :=
  { userId := "u6", uploadId := "up6", fileName := "f6", originalName := "g.mp4",
    mimeType := "video/mp4", totalSize := 100, totalChunks := 2, uploadedChunks := 0,
    parts := [], status := .initiated, expiresAt := 9 }

/-! ### C1: completeness check of `complete` -/

/-- C1 counterexample: a session with `totalChunks = 2` whose recorded part
numbers are 1 and 5 does not cover the expected set {1, 2}, yet
`completeChunkedUpload` succeeds — the check compares the counter
`uploadedChunks` with `totalChunks` and performs no membership test, so a
part set of the right size with a gap is not rejected. -/
theorem complete_gap_accepted_counterexample :
    resOk (completeChunkedUpload [gapSession] "up1" "u1" true "ep" "bk").result = true ∧
      coversExpected gapSession.parts gapSession.totalChunks = false := by
  decide

/-- C1 (amended): for an owned session that is not already completed,
`complete` with a working store succeeds iff `uploadedChunks = totalChunks`
— a comparison of counts, not a membership check of every element of
`{1..totalChunks}` against the recorded part numbers. -/
theorem complete_succeeds_iff_counts_match {db : List Session} {uid oid ep bk : String}
    {s : Session} (hf : findOwned db uid oid = some s) (hc : s.status ≠ .completed) :
    (resOk (completeChunkedUpload db uid oid true ep bk).result = true ↔
      s.uploadedChunks = s.totalChunks) := by
  by_cases h2 : s.uploadedChunks = s.totalChunks
  · simp [completeChunkedUpload, hf, hc, h2, resOk]
  · simp [completeChunkedUpload, hf, hc, h2, resOk]

/-- Witness for the amended C1 at a concrete fully uploaded session. -/
theorem complete_succeeds_iff_counts_match_witness :
    (resOk (completeChunkedUpload [fullSession] "up2" "u2" true "ep" "bk").result = true ↔
      fullSession.uploadedChunks = fullSession.totalChunks) :=
  complete_succeeds_iff_counts_match (by decide) (by decide)

/-! ### C2: terminal states -/

/-- C2 counterexample: `abortChunkedUpload` on a `completed` session is
accepted and overwrites the terminal status with `aborted`, so terminal
states are not absorbing. -/
theorem terminal_not_absorbing_counterexample :
    resOk (abortChunkedUpload [doneSession] "up3" "u3" true).result = true ∧
      (abortChunkedUpload [doneSession] "up3" "u3" true).db =
        [{ doneSession with status := .aborted }] := by
  decide

/-- C2 (amended): only `uploadChunk` treats all three terminal statuses as
absorbing — it fails and changes neither the database nor the store;
`complete` rejects only a `completed` session; `abort` performs no status
check at all, and on a `completed` session with the store succeeding it
succeeds and rewrites the status to `aborted`. -/
theorem terminal_absorbing_only_for_uploadChunk :
    (∀ (db : List Session) (uid : String) (pn : Nat) (chunk : List Nat)
        (et : Option String) (s : Session), findByUploadId db uid = some s →
        s.status.isTerminal →
        (uploadChunk db uid pn chunk et).db = db ∧
        (uploadChunk db uid pn chunk et).cmds = [] ∧
        resOk (uploadChunk db uid pn chunk et).result = false) ∧
    (∀ (db : List Session) (uid oid : String) (so : Bool) (ep bk : String)
        (s : Session), findOwned db uid oid = some s → s.status = .completed →
        completeChunkedUpload db uid oid so ep bk = ⟨.error .alreadyCompleted, db, []⟩) ∧
    (∀ (db : List Session) (uid oid : String) (s : Session),
        findOwned db uid oid = some s → s.status = .completed →
        resOk (abortChunkedUpload db uid oid true).result = true ∧
        (abortChunkedUpload db uid oid true).db =
          saveSession db { s with status := .aborted }) := by
  refine ⟨?_, ?_, ?_⟩
  · intro db uid pn chunk et s hf hterm
    cases hst : s.status with
    | initiated => rw [hst] at hterm; exact absurd hterm (by simp [Status.isTerminal])
    | uploading => rw [hst] at hterm; exact absurd hterm (by simp [Status.isTerminal])
    | completed => refine ⟨?_, ?_, ?_⟩ <;> simp [uploadChunk, hf, hst, resOk]
    | aborted => refine ⟨?_, ?_, ?_⟩ <;> simp [uploadChunk, hf, hst, resOk]
    | failed => refine ⟨?_, ?_, ?_⟩ <;> simp [uploadChunk, hf, hst, resOk]
  · intro db uid oid so ep bk s hf hc
    simp [completeChunkedUpload, hf, hc]
  · intro db uid oid s hf hc
    exact ⟨by simp [abortChunkedUpload, hf, resOk], by simp [abortChunkedUpload, hf]⟩

/-- Witness for the amended C2: the `uploadChunk` and `abort` conjuncts
applied to a concrete completed session. -/
theorem terminal_absorbing_only_for_uploadChunk_witness :
    (uploadChunk [doneSession2] "up4" 1 [0] (some "e")).db = [doneSession2] ∧
      resOk (abortChunkedUpload [doneSession2] "up4" "u4" true).result = true := by
  constructor
  · exact (terminal_absorbing_only_for_uploadChunk.1 [doneSession2] "up4" 1 [0]
      (some "e") doneSession2 (by decide) (by simp [doneSession2, Status.isTerminal])).1
  · exact (terminal_absorbing_only_for_uploadChunk.2.2 [doneSession2] "up4" "u4"
      doneSession2 (by decide) (by decide)).1

/-! ### C3: part-number range check -/

/-- C3 counterexample: on a session with `totalChunks = 2`, uploading
`partNumber = 5` succeeds and the out-of-range part is stored and recorded
in `parts` — there is no `PartOutOfRange` rejection. -/
theorem part_out_of_range_accepted_counterexample :
    resOk (uploadChunkHandler [freshSession] (some "u5") "up5" (some 5)
        (some [1, 2]) (some "et")).result = true ∧
      (uploadChunkHandler [freshSession] (some "u5") "up5" (some 5)
        (some [1, 2]) (some "et")).db =
        [{ freshSession with parts := [⟨5, "et", 2⟩], uploadedChunks := 1,
                              status := .uploading }] := by
  decide

/-- C3 (amended): the only part-number validation is the controller's
positivity check; no upper bound against `totalChunks` exists: any
`partNumber ≥ 1` whose part is not yet recorded is uploaded to the store
and appended to `parts`, even when it exceeds `totalChunks`. -/
theorem only_positive_partNumbers_checked :
    (∀ (db : List Session) (c uid : String) (pn : Int) (body : List Nat)
        (et : Option String), pn < 1 →
        uploadChunkHandler db (some c) uid (some pn) (some body) et =
          ⟨.error .badPartNumber, db, []⟩) ∧
    (∀ (db : List Session) (c uid : String) (pn : Int) (body : List Nat)
        (eTag : String) (s : Session), 1 ≤ pn →
        findByUploadId db uid = some s →
        s.status ≠ .completed → ¬(s.status = .aborted ∨ s.status = .failed) →
        s.parts.find? (fun p => decide (p.partNumber = pn.toNat)) = none →
        uploadChunkHandler db (some c) uid (some pn) (some body) (some eTag) =
          ⟨.ok ⟨pn.toNat, eTag, s.uploadedChunks + 1, s.totalChunks⟩,
           saveSession db { s with
              parts := s.parts ++ [⟨pn.toNat, eTag, body.length⟩],
              uploadedChunks := s.uploadedChunks + 1, status := .uploading },
           [.uploadPart s.fileName uid pn.toNat body]⟩) := by
  constructor
  · intro db c uid pn body et hlt
    simp [uploadChunkHandler, hlt]
  · intro db c uid pn body eTag s hge hf hc hnt hfr
    have hpn : ¬ pn < 1 := by omega
    simp [uploadChunkHandler, hpn, uploadChunk, hf, hc, hnt, hfr]

/-- Witness for the amended C3: `partNumber = 0` is rejected;
`partNumber = 5` on a two-chunk session is accepted and recorded. -/
theorem only_positive_partNumbers_checked_witness :
    uploadChunkHandler [freshSession] (some "u5") "up5" (some 0) (some [1])
        (some "et") = ⟨.error .badPartNumber, [freshSession], []⟩ ∧
      uploadChunkHandler [freshSession] (some "u5") "up5" (some 5) (some [1, 2])
          (some "et") =
        ⟨.ok ⟨5, "et", 1, 2⟩,
         saveSession [freshSession] { freshSession with
            parts := [⟨5, "et", 2⟩], uploadedChunks := 1, status := .uploading },
         [.uploadPart "f5" "up5" 5 [1, 2]]⟩ := by
  constructor
  · exact only_positive_partNumbers_checked.1 [freshSession] "u5" "up5" 0 [1]
      (some "et") (by decide)
  · exact only_positive_partNumbers_checked.2 [freshSession] "u5" "up5" 5 [1, 2]
      "et" freshSession (by decide) (by decide) (by decide) (by decide) (by decide)

/-! ### C4: owner scoping -/

/-- C4 counterexample: the caller "mallory" differs from the session owner
"u6", yet `uploadChunkHandler` succeeds and appends a part to the foreign
session — `uploadChunk` never consults the caller identity. -/
theorem cross_owner_upload_accepted_counterexample :
    ("mallory" ≠ freshSession2.userId) ∧
    resOk (uploadChunkHandler [freshSession2] (some "mallory") "up6" (some 1)
        (some [7]) (some "et")).result = true ∧
      (uploadChunkHandler [freshSession2] (some "mallory") "up6" (some 1)
        (some [7]) (some "et")).db =
        [{ freshSession2 with parts := [⟨1, "et", 1⟩], uploadedChunks := 1,
                               status := .uploading }] := by
  decide

/-- C4 (amended): `complete`, `abort` and `getStatus` are owner-scoped —
when no session matches both `uploadId` and the caller they fail with
not-found and change nothing — but `uploadPart` ignores the caller
identity entirely: its outcome is the same for every authenticated caller,
so a cross-owner part upload is not rejected. -/
theorem owner_scoping_except_uploadChunk :
    (∀ (db : List Session) (uid oid : String) (so : Bool) (ep bk : String),
        findOwned db uid oid = none →
        completeChunkedUpload db uid oid so ep bk = ⟨.error .sessionNotFound, db, []⟩) ∧
    (∀ (db : List Session) (uid oid : String) (so : Bool),
        findOwned db uid oid = none →
        abortChunkedUpload db uid oid so = ⟨.error .sessionNotFound, db, []⟩) ∧
    (∀ (db : List Session) (uid oid : String),
        findOwned db uid oid = none →
        getUploadStatus db uid oid = .error .sessionNotFound) ∧
    (∀ (db : List Session) (uid : String) (pn : Option Int)
        (chunk : Option (List Nat)) (et : Option String) (c₁ c₂ : String),
        uploadChunkHandler db (some c₁) uid pn chunk et =
          uploadChunkHandler db (some c₂) uid pn chunk et) := by
  refine ⟨?_, ?_, ?_, ?_⟩
  · intro db uid oid so ep bk hf
    simp [completeChunkedUpload, hf]
  · intro db uid oid so hf
    simp [abortChunkedUpload, hf]
  · intro db uid oid hf
    simp [getUploadStatus, hf]
  · intro db uid pn chunk et c₁ c₂
    rfl

/-- Witness for the amended C4: a wrong-owner `complete` and `abort` fail
with not-found on a concrete session, and the upload handler's outcome is
caller-independent on a concrete call. -/
theorem owner_scoping_except_uploadChunk_witness :
    completeChunkedUpload [freshSession2] "up6" "mallory" true "ep" "bk" =
        ⟨.error .sessionNotFound, [freshSession2], []⟩ ∧
      abortChunkedUpload [freshSession2] "up6" "mallory" true =
        ⟨.error .sessionNotFound, [freshSession2], []⟩ ∧
      uploadChunkHandler [freshSession2] (some "mallory") "up6" (some 1) (some [7])
          (some "et") =
        uploadChunkHandler [freshSession2] (some "u6") "up6" (some 1) (some [7])
          (some "et") := by
  refine ⟨?_, ?_, ?_⟩
  · exact owner_scoping_except_uploadChunk.1 [freshSession2] "up6" "mallory" true
      "ep" "bk" (by decide)
  · exact owner_scoping_except_uploadChunk.2.1 [freshSession2] "up6" "mallory" true
      (by decide)
  · exact owner_scoping_except_uploadChunk.2.2.2 [freshSession2] "up6" (some 1)
      (some [7]) (some "et") "mallory" "u6"

/-! ### C5: idempotence by partNumber -/

/-- C5: on a non-terminal session, uploading a `partNumber` already in
`parts` is a pure read — it returns the recorded eTag with the session's
counts, issues no store command, and leaves the database unchanged; an
immediate retry of a fresh upload returns exactly the first call's result
with no further change; and `uploadChunk` preserves uniqueness of part
numbers, so `parts` never holds two entries with the same `partNumber`. -/
theorem upload_idempotent_by_partNumber :
    (∀ (db : List Session) (uid : String) (pn : Nat) (chunk : List Nat)
        (et : Option String) (s : Session) (e : Part),
        findByUploadId db uid = some s →
        s.status ≠ .completed → ¬(s.status = .aborted ∨ s.status = .failed) →
        s.parts.find? (fun p => decide (p.partNumber = pn)) = some e →
        uploadChunk db uid pn chunk et =
          ⟨.ok ⟨pn, e.eTag, s.uploadedChunks, s.totalChunks⟩, db, []⟩) ∧
    (∀ (db : List Session) (uid : String) (pn : Nat) (chunk chunk' : List Nat)
        (eTag : String) (et' : Option String) (s : Session),
        findByUploadId db uid = some s →
        s.status ≠ .completed → ¬(s.status = .aborted ∨ s.status = .failed) →
        s.parts.find? (fun p => decide (p.partNumber = pn)) = none →
        uploadChunk (uploadChunk db uid pn chunk (some eTag)).db uid pn chunk' et' =
          ⟨(uploadChunk db uid pn chunk (some eTag)).result,
           (uploadChunk db uid pn chunk (some eTag)).db, []⟩) ∧
    (∀ (db : List Session) (uid : String) (pn : Nat) (chunk : List Nat)
        (et : Option String) (t : Session),
        (∀ s ∈ db, partsNodup s) → t ∈ (uploadChunk db uid pn chunk et).db →
        partsNodup t) := by
  refine ⟨?_, ?_, ?_⟩
  · intro db uid pn chunk et s e hf hc hnt hdup
    simp [uploadChunk, hf, hc, hnt, hdup]
  · intro db uid pn chunk chunk' eTag et' s hf hc hnt hfr
    have hs : s.uploadId = uid := by simpa using List.find?_some hf
    have h1 : uploadChunk db uid pn chunk (some eTag) =
        ⟨.ok ⟨pn, eTag, s.uploadedChunks + 1, s.totalChunks⟩,
         saveSession db { s with parts := s.parts ++ [⟨pn, eTag, chunk.length⟩],
                                 uploadedChunks := s.uploadedChunks + 1,
                                 status := .uploading },
         [.uploadPart s.fileName uid pn chunk]⟩ := by
      simp [uploadChunk, hf, hc, hnt, hfr]
    rw [h1]
    have hf2 : findByUploadId (saveSession db
        { s with parts := s.parts ++ [⟨pn, eTag, chunk.length⟩],
                 uploadedChunks := s.uploadedChunks + 1, status := .uploading }) uid =
        some { s with parts := s.parts ++ [⟨pn, eTag, chunk.length⟩],
                      uploadedChunks := s.uploadedChunks + 1, status := .uploading } :=
      find_of_saveSession hf hs
    have hfind : ((s.parts ++ [(⟨pn, eTag, chunk.length⟩ : Part)]).find?
        fun p => decide (p.partNumber = pn)) = some ⟨pn, eTag, chunk.length⟩ := by
      rw [List.find?_append, hfr]
      simp
    simp [uploadChunk, hf2, hfind]
  · intro db uid pn chunk et t hinv ht
    cases hf : findByUploadId db uid with
    | none =>
        simp only [uploadChunk, hf] at ht
        exact hinv t ht
    | some s =>
        by_cases h1 : s.status = .completed
        · simp only [uploadChunk, hf, if_pos h1] at ht
          exact hinv t ht
        · by_cases h2 : s.status = .aborted ∨ s.status = .failed
          · simp only [uploadChunk, hf, if_neg h1, if_pos h2] at ht
            exact hinv t ht
          · cases hfp : s.parts.find? (fun p => decide (p.partNumber = pn)) with
            | some e =>
                simp only [uploadChunk, hf, if_neg h1, if_neg h2, hfp] at ht
                exact hinv t ht
            | none =>
              cases et with
              | none =>
                  simp only [uploadChunk, hf, if_neg h1, if_neg h2, hfp] at ht
                  exact hinv t ht
              | some tag =>
                  simp only [uploadChunk, hf, if_neg h1, if_neg h2, hfp] at ht
                  rcases mem_saveSession ht with rfl | htdb
                  · have hsmem : s ∈ db := List.mem_of_find?_eq_some hf
                    have hnod : (s.parts.map Part.partNumber).Nodup := hinv s hsmem
                    have hnotin : ∀ p ∈ s.parts, p.partNumber ≠ pn := by
                      intro p hp
                      have := List.find?_eq_none.mp hfp p hp
                      simpa using this
                    unfold partsNodup
                    simp only [List.map_append, List.map_cons, List.map_nil]
                    refine List.Nodup.append hnod (by simp) ?_
                    intro a ha hb
                    rcases List.mem_map.mp ha with ⟨p, hp, hpa⟩
                    have hapn : a = pn := by simpa using hb
                    exact hnotin p hp (hpa.trans hapn)
                  · exact hinv t htdb

/-- Witness for C5: the duplicate-upload conjunct, the retry conjunct and
the uniqueness conjunct at concrete sessions. -/
theorem upload_idempotent_by_partNumber_witness :
    uploadChunk [gapSession] "up1" 5 [9] (some "other") =
      ⟨.ok ⟨5, "e5", 2, 2⟩, [gapSession], []⟩ ∧
    uploadChunk (uploadChunk [freshSession] "up5" 1 [1] (some "x")).db "up5" 1 [2]
        (some "y") =
      ⟨(uploadChunk [freshSession] "up5" 1 [1] (some "x")).result,
       (uploadChunk [freshSession] "up5" 1 [1] (some "x")).db, []⟩ ∧
    partsNodup gapSession := by
  refine ⟨?_, ?_, ?_⟩
  · exact upload_idempotent_by_partNumber.1 [gapSession] "up1" 5 [9] (some "other")
      gapSession ⟨5, "e5", 50⟩ (by decide) (by decide) (by decide) (by decide)
  · exact upload_idempotent_by_partNumber.2.1 [freshSession] "up5" 1 [1] [2] "x"
      (some "y") freshSession (by decide) (by decide) (by decide) (by decide)
  · exact upload_idempotent_by_partNumber.2.2 [gapSession] "up1" 5 [9] (some "other")
      gapSession (by decide) (by decide)

/-! ### C6: abort semantics -/

/-- An already aborted session. -/
def abortedSession : Session :=
  { userId := "u8", uploadId := "up8", fileName := "f8", originalName := "h.mp4",
    mimeType := "video/mp4", totalSize := 100, totalChunks := 2, uploadedChunks := 1,
    parts := [⟨1, "e1", 50⟩], status := .aborted, expiresAt := 9 }

/-- A third completed session. -/
def doneSession3 : Session :=
  { userId := "u9", uploadId := "up9", fileName := "f9", originalName := "i.mp4",
    mimeType := "video/mp4", totalSize := 50, totalChunks := 1, uploadedChunks := 1,
    parts := [⟨1, "e1", 50⟩], status := .completed, expiresAt := 9 }

/-- C6 counterexample: abort on a `completed` session is not rejected — it
succeeds and transitions the session to `aborted`. -/
theorem abort_completed_not_rejected_counterexample :
    resOk (abortChunkedUpload [doneSession3] "up9" "u9" true).result = true ∧
      (abortChunkedUpload [doneSession3] "up9" "u9" true).db =
        [{ doneSession3 with status := .aborted }] := by
  decide

/-- C6 (amended): `abort` never inspects the status: for every owned
session, when the store release succeeds the call succeeds, issues exactly
one store release, and persists the session with status `aborted` — also
when the session was already `completed`.  On an already aborted session
(with unique uploadIds) the rewrite is the identity, so a second abort is
a no-op on the state. -/
theorem abort_always_transitions :
    (∀ (db : List Session) (uid oid : String) (s : Session),
        findOwned db uid oid = some s →
        abortChunkedUpload db uid oid true =
          ⟨.ok (), saveSession db { s with status := .aborted },
           [.abortMultipart s.fileName uid]⟩) ∧
    (∀ (db : List Session) (uid oid : String) (s : Session),
        (db.map Session.uploadId).Nodup →
        findOwned db uid oid = some s → s.status = .aborted →
        (abortChunkedUpload db uid oid true).db = db) := by
  constructor
  · intro db uid oid s hf
    simp [abortChunkedUpload, hf]
  · intro db uid oid s hnd hf hst
    have hmem : s ∈ db := List.mem_of_find?_eq_some hf
    have heq : { s with status := Status.aborted } = s := by
      cases s
      simp_all
    simp [abortChunkedUpload, hf, heq, saveSession_self hnd hmem]

/-- Witness for the amended C6: abort of an already-aborted concrete
session succeeds and leaves the database unchanged. -/
theorem abort_always_transitions_witness :
    abortChunkedUpload [abortedSession] "up8" "u8" true =
      ⟨.ok (), saveSession [abortedSession] { abortedSession with status := .aborted },
       [.abortMultipart "f8" "up8"]⟩ ∧
    (abortChunkedUpload [abortedSession] "up8" "u8" true).db = [abortedSession] := by
  constructor
  · exact abort_always_transitions.1 [abortedSession] "up8" "u8" abortedSession
      (by decide)
  · exact abort_always_transitions.2 [abortedSession] "up8" "u8" abortedSession
      (by decide) (by decide) (by decide)

/-! ### C7: initiate validation -/

/-- C7: `initiate` rejects a non-video MIME type, a size above 10 GiB, and
a size below one 5 MiB part with more than one declared part — each before
any store command is issued and before any session record is persisted; an
accepted call returns the fixed `chunkSize` 5242880 and appends a session
in `initiated` state with `expiresAt` 24 hours after creation. -/
theorem initiate_validation :
    (∀ (db : List Session) (u orig mt : String) (ts tc now : Nat) (r : String)
        (sid : Option String), ¬ allowedVideoTypes.contains mt →
        initiateChunkedUpload db u orig mt ts tc now r sid =
          ⟨.error .invalidMediaType, db, []⟩) ∧
    (∀ (db : List Session) (u orig mt : String) (ts tc now : Nat) (r : String)
        (sid : Option String), allowedVideoTypes.contains mt → ts > MAX_VIDEO_SIZE →
        initiateChunkedUpload db u orig mt ts tc now r sid =
          ⟨.error .sizeExceeded, db, []⟩) ∧
    (∀ (db : List Session) (u orig mt : String) (ts tc now : Nat) (r : String)
        (sid : Option String), allowedVideoTypes.contains mt →
        ¬ ts > MAX_VIDEO_SIZE → ts < CHUNK_SIZE → tc > 1 →
        initiateChunkedUpload db u orig mt ts tc now r sid =
          ⟨.error .tooSmallForChunked, db, []⟩) ∧
    (∀ (db : List Session) (u orig mt : String) (ts tc now : Nat) (r uid : String),
        allowedVideoTypes.contains mt → ¬ ts > MAX_VIDEO_SIZE →
        ¬ (ts < CHUNK_SIZE ∧ tc > 1) →
        initiateChunkedUpload db u orig mt ts tc now r (some uid) =
          ⟨.ok ⟨uid, "files/" ++ u ++ "/" ++ toString now ++ "-" ++ r ++ extname orig,
                CHUNK_SIZE⟩,
           db ++ [{ userId := u, uploadId := uid,
                    fileName := "files/" ++ u ++ "/" ++ toString now ++ "-" ++ r
                      ++ extname orig,
                    originalName := orig,
                    mimeType := resolveContentType mt (extname orig),
                    totalSize := ts, totalChunks := tc, uploadedChunks := 0,
                    parts := [], status := .initiated,
                    expiresAt := now + 24 * 60 * 60 * 1000 }],
           [.createMultipart
              ("files/" ++ u ++ "/" ++ toString now ++ "-" ++ r ++ extname orig)
              (resolveContentType mt (extname orig))]⟩ ∧
        CHUNK_SIZE = 5242880) := by
  refine ⟨?_, ?_, ?_, ?_⟩
  · intro db u orig mt ts tc now r sid h1
    unfold initiateChunkedUpload
    rw [if_pos h1]
  · intro db u orig mt ts tc now r sid h1 h2
    unfold initiateChunkedUpload
    rw [if_neg (not_not_intro h1), if_pos h2]
  · intro db u orig mt ts tc now r sid h1 h2 h3 h4
    unfold initiateChunkedUpload
    rw [if_neg (not_not_intro h1), if_neg h2, if_pos ⟨h3, h4⟩]
  · intro db u orig mt ts tc now r uid h1 h2 h3
    refine ⟨?_, rfl⟩
    unfold initiateChunkedUpload
    rw [if_neg (not_not_intro h1), if_neg h2, if_neg h3]

/-- Witness for C7: each branch of the validation at a concrete input. -/
theorem initiate_validation_witness :
    initiateChunkedUpload [] "u" "a.txt" "text/plain" 100 1 0 "r" (some "id") =
      ⟨.error .invalidMediaType, [], []⟩ ∧
    initiateChunkedUpload [] "u" "a.mp4" "video/mp4" 10737418241 3 0 "r" (some "id") =
      ⟨.error .sizeExceeded, [], []⟩ ∧
    initiateChunkedUpload [] "u" "a.mp4" "video/mp4" 100 2 0 "r" (some "id") =
      ⟨.error .tooSmallForChunked, [], []⟩ ∧
    (initiateChunkedUpload [] "u" "a.mp4" "video/mp4" 10485760 2 0 "r" (some "id")).result =
      .ok ⟨"id", "files/u/0-r.mp4", 5242880⟩ := by
  refine ⟨?_, ?_, ?_, ?_⟩
  · exact initiate_validation.1 [] "u" "a.txt" "text/plain" 100 1 0 "r" (some "id")
      (by decide)
  · exact initiate_validation.2.1 [] "u" "a.mp4" "video/mp4" 10737418241 3 0 "r"
      (some "id") (by decide) (by decide)
  · exact initiate_validation.2.2.1 [] "u" "a.mp4" "video/mp4" 100 2 0 "r"
      (some "id") (by decide) (by decide) (by decide) (by decide)
  · rw [(initiate_validation.2.2.2 [] "u" "a.mp4" "video/mp4" 10485760 2 0 "r" "id"
      (by decide) (by decide) (by decide)).1]
    decide

/-! ### C8: atomic, retryable completion -/

/-- C8: when the store merge fails, `complete` returns an error with the
database (hence the session's non-`completed` status) unchanged, having
issued the merge command; a retry on the same state issues the identical
merge instruction; and the instruction lists the recorded parts sorted
ascending by `partNumber`, each paired with its recorded eTag. -/
theorem complete_retryable_after_store_failure {db : List Session}
    {uid oid ep bk : String} {s : Session}
    (hf : findOwned db uid oid = some s) (hc : s.status ≠ .completed)
    (hall : s.uploadedChunks = s.totalChunks) :
    completeChunkedUpload db uid oid false ep bk =
      ⟨.error .storeFailure, db,
       [.completeMultipart s.fileName uid
          ((sortParts s.parts).map fun p => (p.partNumber, p.eTag))]⟩ ∧
    (completeChunkedUpload db uid oid true ep bk).cmds =
      [.completeMultipart s.fileName uid
        ((sortParts s.parts).map fun p => (p.partNumber, p.eTag))] ∧
    ((sortParts s.parts).map fun p => p.partNumber).Pairwise (· ≤ ·) := by
  refine ⟨?_, ?_, ?_⟩
  · simp [completeChunkedUpload, hf, hc, hall]
  · simp [completeChunkedUpload, hf, hc, hall]
  · exact List.pairwise_map.mpr (sorted_sortParts s.parts)

/-- Witness for C8 on a concrete fully uploaded session whose parts were
recorded out of order. -/
theorem complete_retryable_after_store_failure_witness :
    completeChunkedUpload [fullSession] "up2" "u2" false "ep" "bk" =
      ⟨.error .storeFailure, [fullSession],
       [.completeMultipart "f2" "up2" [(1, "e1"), (2, "e2")]]⟩ ∧
    (completeChunkedUpload [fullSession] "up2" "u2" true "ep" "bk").cmds =
      [.completeMultipart "f2" "up2" [(1, "e1"), (2, "e2")]] := by
  have h := @complete_retryable_after_store_failure [fullSession] "up2" "u2"
    "ep" "bk" fullSession (by decide) (by decide) (by decide)
  constructor
  · rw [h.1]
    decide
  · rw [h.2.1]
    decide

/-! ### C9: expiry reaper -/

/-- C9: the sweep issues exactly one store release per session with
`expiresAt < now` and status `initiated` or `uploading`, independent of
per-session failures; the cleaned count is the number of such sessions
whose cleanup succeeded; sessions outside that set are never removed; and
an expired active session whose own cleanup succeeded is removed no matter
which other sessions failed — one failure never blocks the rest. -/
theorem reaper_sweeps_exactly_expired_active {db : List Session} {now : Nat}
    {ok : String → Bool} (hnd : (db.map Session.uploadId).Nodup) :
    (cleanupExpiredUploads db now ok).2.2 =
      (db.filter (isExpiredActive now)).map
        (fun u => StoreCmd.abortMultipart u.fileName u.uploadId) ∧
    (cleanupExpiredUploads db now ok).1 =
      ((db.filter (isExpiredActive now)).filter fun u => ok u.uploadId).length ∧
    (∀ s ∈ db, isExpiredActive now s = false →
        s ∈ (cleanupExpiredUploads db now ok).2.1) ∧
    (∀ s ∈ db, isExpiredActive now s = true → ok s.uploadId = true →
        s ∉ (cleanupExpiredUploads db now ok).2.1) := by
  refine ⟨?_, ?_, ?_, ?_⟩
  · simpa [cleanupExpiredUploads] using
      cleanupLoop_cmds ok (db.filter (isExpiredActive now)) 0 db []
  · simpa [cleanupExpiredUploads] using
      cleanupLoop_count ok (db.filter (isExpiredActive now)) 0 db []
  · intro s hs hexp
    unfold cleanupExpiredUploads
    refine cleanupLoop_mem_preserved ok _ 0 db [] hs ?_
    intro u hu hequid
    have hudb : u ∈ db := (List.mem_filter.mp hu).1
    have hup : isExpiredActive now u = true := (List.mem_filter.mp hu).2
    have hsu : s = u := List.inj_on_of_nodup_map hnd hs hudb hequid
    rw [hsu, hup] at hexp
    exact Bool.noConfusion hexp
  · intro s hs hexp hok
    unfold cleanupExpiredUploads
    exact cleanupLoop_removes ok _ 0 db [] (List.mem_filter.mpr ⟨hs, hexp⟩) hok

/-- An expired session still in `initiated` state. -/
def expiredSessionA : Session :=
  { userId := "ua", uploadId := "upA", fileName := "fA", originalName := "a.mp4",
    mimeType := "video/mp4", totalSize := 100, totalChunks := 2, uploadedChunks := 0,
    parts := [], status := .initiated, expiresAt := 1 }

/-- An expired session still in `uploading` state. -/
def expiredSessionB : Session :=
  { userId := "ub", uploadId := "upB", fileName := "fB", originalName := "b.mp4",
    mimeType := "video/mp4", totalSize := 100, totalChunks := 2, uploadedChunks := 1,
    parts := [⟨1, "e1", 50⟩], status := .uploading, expiresAt := 2 }

/-- An unexpired session in `uploading` state. -/
def liveSession : Session :=
  { userId := "uc", uploadId := "upC", fileName := "fC", originalName := "c.mp4",
    mimeType := "video/mp4", totalSize := 100, totalChunks := 2, uploadedChunks := 1,
    parts := [⟨1, "e1", 50⟩], status := .uploading, expiresAt := 100 }

/-- Witness for C9: a sweep over two expired sessions (cleanup succeeding
only for the second) and one live session. -/
theorem reaper_sweeps_exactly_expired_active_witness :
    (cleanupExpiredUploads [expiredSessionA, expiredSessionB, liveSession] 50
        fun u => decide (u = "upB")).2.2 =
      [.abortMultipart "fA" "upA", .abortMultipart "fB" "upB"] ∧
    (cleanupExpiredUploads [expiredSessionA, expiredSessionB, liveSession] 50
        fun u => decide (u = "upB")).1 = 1 ∧
    liveSession ∈ (cleanupExpiredUploads [expiredSessionA, expiredSessionB, liveSession]
        50 fun u => decide (u = "upB")).2.1 ∧
    expiredSessionB ∉ (cleanupExpiredUploads [expiredSessionA, expiredSessionB,
        liveSession] 50 fun u => decide (u = "upB")).2.1 := by
  have h := @reaper_sweeps_exactly_expired_active
    [expiredSessionA, expiredSessionB, liveSession] 50
    (fun u => decide (u = "upB")) (by decide)
  refine ⟨?_, ?_, ?_, ?_⟩
  · rw [h.1]
    decide
  · rw [h.2.1]
    decide
  · exact h.2.2.1 liveSession (by decide) (by decide)
  · exact h.2.2.2 expiredSessionB (by decide) (by decide) (by decide)

/-! ### C10: the counter tracks the parts array -/

/-- C10: `initiate` creates sessions with `uploadedChunks = 0` and empty
`parts`; a successful `uploadChunk` appends exactly one entry and adds one
to the counter; `complete` and `abort` change neither; hence every
database in which `uploadedChunks = parts.length` holds keeps that
invariant under all four operations — and `complete` decides completeness
from the counter: it fails with `incompleteUpload` iff the counter differs
from `totalChunks`. -/
theorem counter_tracks_parts :
    (∀ (db : List Session) (u orig mt : String) (ts tc now : Nat) (r : String)
        (sid : Option String), dbInv db →
        dbInv (initiateChunkedUpload db u orig mt ts tc now r sid).db) ∧
    (∀ (db : List Session) (uid : String) (pn : Nat) (chunk : List Nat)
        (et : Option String), dbInv db → dbInv (uploadChunk db uid pn chunk et).db) ∧
    (∀ (db : List Session) (uid oid : String) (so : Bool) (ep bk : String),
        dbInv db → dbInv (completeChunkedUpload db uid oid so ep bk).db) ∧
    (∀ (db : List Session) (uid oid : String) (so : Bool), dbInv db →
        dbInv (abortChunkedUpload db uid oid so).db) ∧
    (∀ (db : List Session) (uid oid : String) (so : Bool) (ep bk : String)
        (s : Session), findOwned db uid oid = some s → s.status ≠ .completed →
        ((completeChunkedUpload db uid oid so ep bk).result =
            .error .incompleteUpload ↔ s.uploadedChunks ≠ s.totalChunks)) := by
  refine ⟨?_, ?_, ?_, ?_, ?_⟩
  · intro db u orig mt ts tc now r sid hinv
    unfold initiateChunkedUpload
    by_cases h1 : ¬ allowedVideoTypes.contains mt
    · rw [if_pos h1]
      exact hinv
    rw [if_neg h1]
    by_cases h2 : ts > MAX_VIDEO_SIZE
    · rw [if_pos h2]
      exact hinv
    rw [if_neg h2]
    by_cases h3 : ts < CHUNK_SIZE ∧ tc > 1
    · rw [if_pos h3]
      exact hinv
    rw [if_neg h3]
    cases sid with
    | none => exact hinv
    | some uid =>
        intro t ht
        rcases List.mem_append.mp ht with h | h
        · exact hinv t h
        · have := List.mem_singleton.mp h
          rw [this]
          rfl
  · intro db uid pn chunk et hinv
    cases hf : findByUploadId db uid with
    | none =>
        simp only [uploadChunk, hf]
        exact hinv
    | some s =>
        by_cases h1 : s.status = .completed
        · simp only [uploadChunk, hf, if_pos h1]
          exact hinv
        · by_cases h2 : s.status = .aborted ∨ s.status = .failed
          · simp only [uploadChunk, hf, if_neg h1, if_pos h2]
            exact hinv
          · cases hfp : s.parts.find? (fun p => decide (p.partNumber = pn)) with
            | some e =>
                simp only [uploadChunk, hf, if_neg h1, if_neg h2, hfp]
                exact hinv
            | none =>
              cases et with
              | none =>
                  simp only [uploadChunk, hf, if_neg h1, if_neg h2, hfp]
                  exact hinv
              | some tag =>
                  simp only [uploadChunk, hf, if_neg h1, if_neg h2, hfp]
                  intro t ht
                  rcases mem_saveSession ht with rfl | htdb
                  · have hsc : counterInv s := hinv s (List.mem_of_find?_eq_some hf)
                    unfold counterInv at hsc ⊢
                    simp [hsc]
                  · exact hinv t htdb
  · intro db uid oid so ep bk hinv
    cases hf : findOwned db uid oid with
    | none =>
        simp only [completeChunkedUpload, hf]
        exact hinv
    | some s =>
        by_cases h1 : s.status = .completed
        · simp only [completeChunkedUpload, hf, if_pos h1]
          exact hinv
        · by_cases h2 : s.uploadedChunks ≠ s.totalChunks
          · simp only [completeChunkedUpload, hf, if_neg h1, if_pos h2]
            exact hinv
          · cases so with
            | false =>
                simp only [completeChunkedUpload, hf, if_neg h1, if_neg h2,
                  Bool.false_eq_true, if_false]
                exact hinv
            | true =>
                simp only [completeChunkedUpload, hf, if_neg h1, if_neg h2, if_true]
                intro t ht
                rcases mem_saveSession ht with rfl | htdb
                · have hsc : counterInv s := hinv s (List.mem_of_find?_eq_some hf)
                  unfold counterInv at hsc ⊢
                  simpa [length_sortParts] using hsc
                · exact hinv t htdb
  · intro db uid oid so hinv
    cases hf : findOwned db uid oid with
    | none =>
        simp only [abortChunkedUpload, hf]
        exact hinv
    | some s =>
        cases so with
        | false =>
            simp only [abortChunkedUpload, hf, Bool.false_eq_true, if_false]
            exact hinv
        | true =>
            simp only [abortChunkedUpload, hf, if_true]
            intro t ht
            rcases mem_saveSession ht with rfl | htdb
            · exact hinv s (List.mem_of_find?_eq_some hf)
            · exact hinv t htdb
  · intro db uid oid so ep bk s hf hc
    by_cases h2 : s.uploadedChunks ≠ s.totalChunks
    · simp [completeChunkedUpload, hf, hc, h2]
    · cases so with
      | false => simp [completeChunkedUpload, hf, hc, h2]
      | true => simp [completeChunkedUpload, hf, hc, h2]

/-- Witness for C10: the upload conjunct and the counter-decision conjunct
at concrete sessions. -/
theorem counter_tracks_parts_witness :
    dbInv (uploadChunk [freshSession2] "up6" 1 [7] (some "et")).db ∧
    ((completeChunkedUpload [gapSession] "up1" "u1" true "ep" "bk").result =
        .error .incompleteUpload ↔
      gapSession.uploadedChunks ≠ gapSession.totalChunks) := by
  constructor
  · exact counter_tracks_parts.2.1 [freshSession2] "up6" 1 [7] (some "et")
      (by decide)
  · exact counter_tracks_parts.2.2.2.2 [gapSession] "up1" "u1" true "ep" "bk"
      gapSession (by decide) (by decide)

end Memorly
